import Mathlib

/-!
Verification development for the Muziek repository (a browser app that
records a microphone clip, sends it to a generative model for song
identification, and requests album-art imagery from a second model).

The embedding models the pure decoding logic of
src/services/geminiService.ts (field extraction, fallback substitution,
grounding-source decoding, image extraction) and the session state
machine of src/App.tsx (startListening / processAudio and the rendering
guards of the UI) as executable Lean definitions.  Strings are modelled
as lists of characters; JavaScript string truthiness (empty string is
falsy) is modelled explicitly.
-/

namespace Muziek

/-- Strings are modelled as lists of characters. -/
abbrev Str := List Char

/-- Convert a Lean string literal into the list-of-characters model. -/
def str (s : String) : Str := s.data

/-- Whitespace test matching the characters relevant to JS trim and the
regex class backslash-s on the ASCII inputs this code handles. -/
def isWhite (c : Char) : Bool :=
  c = ' ' || c = '\t' || c = '\n' || c = '\r' || c = '\x0b' || c = '\x0c'

/-- Characters that terminate a regex dot-capture (JS dot does not match
line terminators). -/
def notLineBreak (c : Char) : Bool := !(c = '\n' || c = '\r')

/-- Case-insensitive prefix test, character by character, mirroring the
case-insensitive matching of the extraction regex and of
toLowerCase-plus-startsWith in the revision extractor. -/
def isPrefixOfCI : Str → Str → Bool
  | [], _ => true
  | _ :: _, [] => false
  | c :: p, d :: t => (c.toLower == d.toLower) && isPrefixOfCI p t

/-- Scan the text for the first case-insensitive occurrence of the
pattern; return the remainder of the text after the matched occurrence.
This models leftmost matching of the literal part of the extraction
regex. -/
def searchCI (pat : Str) : Str → Option Str
  | [] => if pat.isEmpty then some [] else none
  | c :: rest =>
    if isPrefixOfCI pat (c :: rest) then some ((c :: rest).drop pat.length)
    else searchCI pat rest

/-- Take the rest of the current line, as the regex dot-capture does. -/
def takeLine (l : Str) : Str := l.takeWhile notLineBreak

/-- JS String.prototype.trim : drop whitespace from both ends. -/
def trimStr (l : Str) : Str :=
  ((l.dropWhile isWhite).reverse.dropWhile isWhite).reverse

/-- JS replace of all occurrences of the two bracket characters, from
the extraction code: replace of the bracket alternation with the global
flag removes every occurrence of either bracket. -/
def stripBr (l : Str) : Str := l.filter (fun c => !(c = '[' || c = ']'))

/-- JS logical-or on strings: the empty string is falsy, so the right
operand is returned exactly when the left is empty. -/
def jsOr (s d : Str) : Str := if s.isEmpty then d else s

/-- JS String.prototype.split on a single separator character. -/
def splitOnC (sep : Char) : Str → List Str
  | [] => [[]]
  | c :: rest =>
    if c = sep then [] :: splitOnC sep rest
    else
      match splitOnC sep rest with
      | [] => [[c]]
      | l :: ls => (c :: l) :: ls

/-- JS Array.prototype.join with a single separator character. -/
def joinC (sep : Char) : List Str → Str
  | [] => []
  | [l] => l
  | l :: ls => l ++ sep :: joinC sep ls

/-- Split a response into lines, as text.split on a newline does in the
revision extractor (src/unnamed/part_001). -/
def splitLines : Str → List Str := splitOnC '\n'

/-- Canonical extractField from src/services/geminiService.ts lines
30 to 34: match the field label followed by a colon case-insensitively
anywhere in the text (leftmost occurrence), greedily skip whitespace,
capture the rest of the line, trim it and strip every bracket. -/
def extractFieldC (field : Str) (text : Str) : Str :=
  match searchCI (field ++ str ":") text with
  | none => []
  | some rest => stripBr (trimStr (takeLine (rest.dropWhile isWhite)))

/-- The record of the nine labelled fields extracted from a model
response. -/
structure Fields where
  artist : Str
  title : Str
  lyrics : Str
  mood : Str
  genre : Str
  releaseDate : Str
  spotifyUrl : Str
  youtubeUrl : Str
  visualPrompt : Str
deriving DecidableEq, Repr

/-- Canonical extractFieldsFromResponse from
src/services/geminiService.ts lines 29 to 47. -/
def extractFieldsFromResponse (text : Str) : Fields where
  artist := extractFieldC (str "Artist") text
  title := extractFieldC (str "Title") text
  lyrics := extractFieldC (str "Lyrics") text
  mood := extractFieldC (str "Mood") text
  genre := extractFieldC (str "Genre") text
  releaseDate := extractFieldC (str "ReleaseDate") text
  spotifyUrl := extractFieldC (str "SpotifyUrl") text
  youtubeUrl := extractFieldC (str "YoutubeUrl") text
  visualPrompt := extractFieldC (str "VisualPrompt") text

/-- Revision extractField from src/unnamed/part_001 lines 49 to 54:
split the text into lines, take the first line whose lowercase form
starts with the lowercase label, drop everything up to and including the
first colon of that line (split on colon, drop the head, re-join), trim
and strip every bracket.  A matching line without a colon yields the
empty string. -/
def extractFieldR (field : Str) (text : Str) : Str :=
  match (splitLines text).find? (fun l => isPrefixOfCI field l) with
  | none => []
  | some line => stripBr (trimStr (joinC ':' ((splitOnC ':' line).drop 1)))

/-- The nine per-label calls of the revision extractor, gathered into a
record (src/unnamed/part_001 lines 56 to 64). -/
def extractFieldsRev (text : Str) : Fields where
  artist := extractFieldR (str "Artist") text
  title := extractFieldR (str "Title") text
  lyrics := extractFieldR (str "Lyrics") text
  mood := extractFieldR (str "Mood") text
  genre := extractFieldR (str "Genre") text
  releaseDate := extractFieldR (str "ReleaseDate") text
  spotifyUrl := extractFieldR (str "SpotifyUrl") text
  youtubeUrl := extractFieldR (str "YoutubeUrl") text
  visualPrompt := extractFieldR (str "VisualPrompt") text

/-- Whether the canonical extractor finds the labelled field in the
text (the match condition of the extraction regex). -/
def hasLabel (field : Str) (text : Str) : Bool :=
  (searchCI (field ++ str ":") text).isSome

/-- Web information attached to a grounding chunk: title and uri are
both optional in the external API. -/
structure WebInfo where
  title : Option Str
  uri : Option Str
deriving DecidableEq, Repr

/-- A grounding chunk of the model response: it may or may not carry a
web source. -/
structure Chunk where
  web : Option WebInfo
deriving DecidableEq, Repr

/-- A citation entry as returned to the caller: display title plus
source uri. -/
structure Source where
  title : Str
  uri : Str
deriving DecidableEq, Repr

/-- Decoding of the grounding chunks from src/services/geminiService.ts
lines 73 to 78: keep the chunks that have a web source, then map each
to a citation whose title defaults to the placeholder when the web
title is absent or empty (JS logical-or) and whose uri defaults to the
empty string.  The placeholder differs between revisions, so it is a
parameter: the canonical file uses "Search Result", the part_001
revision uses "Bron". -/
def decodeSources (ph : Str) (chunks : List Chunk) : List Source :=
  (chunks.filter (fun c => c.web.isSome)).map (fun c =>
    { title := jsOr ((c.web.bind WebInfo.title).getD []) ph
      uri := (c.web.bind WebInfo.uri).getD [] })

/-- The typed record produced by the recognition client
(src/unnamed/part_000 types, the MusicAnalysis interface). -/
structure MusicAnalysis where
  artist : Str
  title : Str
  mood : Str
  genre : Str
  lyrics : Str
  visualPrompt : Str
  spotifyUrl : Str
  youtubeUrl : Str
  releaseDate : Str
  sources : List Source
deriving DecidableEq, Repr

/-- Pure decoding part of the canonical analyzeAudio
(src/services/geminiService.ts lines 72 to 89): given the response text
(optional, defaulted to empty as response.text with JS logical-or) and
the grounding chunks, extract the nine fields and build the result with
the documented fallbacks.  The canonical function has no failure path
of its own once a response is available: the try-catch only rethrows
the error of the model call, so decoding always returns a record. -/
def analyzeAudioDecode (text : Option Str) (chunks : List Chunk) : MusicAnalysis :=
  let fields := extractFieldsFromResponse (text.getD [])
  { artist := jsOr fields.artist (str "Unknown Artist")
    title := jsOr fields.title (str "Unknown Track")
    lyrics := jsOr fields.lyrics (str "Atmospheric resonance detected.")
    mood := jsOr fields.mood (str "Atmospheric")
    genre := jsOr fields.genre (str "Unknown Genre")
    visualPrompt := jsOr fields.visualPrompt
      (str "Cinematic album art for a " ++ fields.genre ++ str " track by " ++ fields.artist)
    spotifyUrl := fields.spotifyUrl
    youtubeUrl := fields.youtubeUrl
    releaseDate := fields.releaseDate
    sources := decodeSources (str "Search Result") chunks }

/-- Pure decoding part of the revision analyzeAudio
(src/unnamed/part_001 lines 46 to 85): unlike the canonical version it
throws when the response text is empty, and it uses the line-based
extractor and Dutch fallbacks. -/
def analyzeAudioRevDecode (text : Option Str) (chunks : List Chunk) :
    Except Str MusicAnalysis :=
  let t := text.getD []
  if t.isEmpty then .error (str "Kon geen tekst ophalen van de AI.")
  else
    let fields := extractFieldsRev t
    .ok
      { artist := jsOr fields.artist (str "Onbekende Artiest")
        title := jsOr fields.title (str "Onbekend Nummer")
        lyrics := jsOr fields.lyrics (str "Geen lyrics beschikbaar.")
        mood := jsOr fields.mood (str "Sfeervol")
        genre := jsOr fields.genre (str "Onbekend")
        visualPrompt := jsOr fields.visualPrompt
          (str "Artistic visualization of a song by " ++ fields.artist)
        spotifyUrl := fields.spotifyUrl
        youtubeUrl := fields.youtubeUrl
        releaseDate := fields.releaseDate
        sources := decodeSources (str "Bron") chunks }

/-- Inline binary data of a response content part: declared mime type
plus base64 payload. -/
structure InlineData where
  mimeType : Str
  data : Str
deriving DecidableEq, Repr

/-- A content part of a model response: it may carry inline data. -/
structure Part where
  inlineData : Option InlineData
deriving DecidableEq, Repr

/-- The scanning loop of generateVisual
(src/services/geminiService.ts lines 150 to 157): the image url starts
empty and is set from the first part that carries inline data (the
break ends the loop), with a fixed png data-url tag. -/
def firstImageUrl : List Part → Str
  | [] => []
  | p :: ps =>
    match p.inlineData with
    | some d => str "data:image/png;base64," ++ d.data
    | none => firstImageUrl ps

/-- Pure decoding part of generateVisual
(src/services/geminiService.ts lines 150 to 160): if the scan produced
no url (JS falsiness of the empty string) the call throws, otherwise
the url is returned. -/
def generateVisualDecode (parts : List Part) : Except Str Str :=
  let u := firstImageUrl parts
  if u.isEmpty then .error (str "Could not find image in model response.")
  else .ok u

/-- Rewrite the declared mime type of every inline-data part, leaving
everything else unchanged; used to state that the produced url is
independent of the declared mime type. -/
def setMime (m : Str) (p : Part) : Part :=
  { inlineData := p.inlineData.map (fun d => { d with mimeType := m }) }

/-- The VisionaryState record of src/App.tsx lines 10 to 17. -/
structure UiState where
  isRecording : Bool
  isAnalyzing : Bool
  error : Option Str
  result : Option MusicAnalysis
  imageUrl : Option Str
  countdown : Nat
deriving DecidableEq, Repr

/-- Which asynchronous continuation of the single pipeline is
outstanding: the awaited getUserMedia call of startListening, the
fixed-duration stop timeout, the recognition call of processAudio, or
the visual call of processAudio.  The code keeps at most one of these
in flight because each is scheduled by the completion of the previous
one. -/
inductive Pend where
  | pnone
  | pmic
  | ptimer
  | precstop
  | pvisual
deriving DecidableEq, Repr

/-- The modelled runtime: the React state plus the outstanding
continuation. -/
structure RunState where
  ui : UiState
  pending : Pend
deriving DecidableEq, Repr

/-- External events driving the session: a click on one of the
start/retry buttons (with the host support for media devices as the
environment outcome), the resolution of the getUserMedia call (granted
or denied), the firing of the fixed-duration stop timeout, the
completion of the recognition call (some analysis or a failure), the
completion of the visual call (some url or a failure), and a countdown
interval tick. -/
inductive Ev where
  | clickStart (supported : Bool)
  | micResult (granted : Bool)
  | timerFire
  | recogDone (res : Option MusicAnalysis)
  | visualDone (res : Option Str)
  | tick
deriving DecidableEq, Repr

/-- Rendering guard of src/App.tsx: a start or retry button is in the
DOM exactly when the hero view (no result, not analyzing, not
recording, line 146), the error view (error present, line 200) or the
result view (result and image present, line 218) is rendered; each of
those views carries a button invoking startListening. -/
def buttonVisible (u : UiState) : Bool :=
  (u.result.isNone && !u.isAnalyzing && !u.isRecording)
    || u.error.isSome
    || (u.result.isSome && u.imageUrl.isSome)

/-- Countdown initial value: RECORDING_DURATION / 1000 with
RECORDING_DURATION = 8000 (src/App.tsx line 7). -/
def countdownStart : Nat := 8

/-- One step of the session state machine of src/App.tsx, as a partial
step function: none means the event cannot occur in that state (no
button is rendered, or the corresponding continuation is not
outstanding).

clickStart: startListening (lines 23 to 107).  When media devices are
unsupported the function throws before any state update and the catch
sets the error and clears the recording flag (lines 99 to 106).  When
supported, the first state update clears error, result and image, sets
the recording flag and initialises the countdown (lines 30 to 37), then
getUserMedia is awaited.

micResult: resolution of getUserMedia.  Denied rejects the await and
the catch sets the error and clears the recording flag; granted starts
the recorder and schedules the stop timeout (lines 39 to 97).

timerFire: the stop timeout stops the recorder (whose onstop hands the
clip to processAudio) and sets recording false, analyzing true
(lines 92 to 97).

recogDone: the analyzeAudio call of processAudio resolves.  On success
the result is stored immediately (line 112) and the visual call is
issued; on failure the catch sets the error and clears the analyzing
flag (lines 116 to 123).

visualDone: the generateVisual call resolves.  On success the image is
stored and analyzing cleared (line 115); on failure the catch sets the
error and clears the analyzing flag.

tick: the countdown interval (lines 82 to 90). -/
def stepFn (s : RunState) (e : Ev) : Option RunState :=
  match e with
  | .clickStart supported =>
    if buttonVisible s.ui then
      if supported then
        some ⟨{ s.ui with error := none, result := none, imageUrl := none,
                          isRecording := true, countdown := countdownStart }, .pmic⟩
      else
        some ⟨{ s.ui with
                  error := some (str "Je browser ondersteunt geen audio-opnames. Gebruik een moderne browser."),
                  isRecording := false }, s.pending⟩
    else none
  | .micResult granted =>
    match s.pending with
    | .pmic =>
      if granted then some ⟨s.ui, .ptimer⟩
      else some ⟨{ s.ui with error := some (str "Microfoon toegang geweigerd."),
                             isRecording := false }, .pnone⟩
    | _ => none
  | .timerFire =>
    match s.pending with
    | .ptimer =>
      some ⟨{ s.ui with isRecording := false, isAnalyzing := true }, .precstop⟩
    | _ => none
  | .recogDone res =>
    match s.pending with
    | .precstop =>
      match res with
      | some a => some ⟨{ s.ui with result := some a }, .pvisual⟩
      | none =>
        some ⟨{ s.ui with
                  error := some (str "Geen match gevonden. Probeer het nummer iets dichter bij de microfoon te houden."),
                  isAnalyzing := false }, .pnone⟩
    | _ => none
  | .visualDone res =>
    match s.pending with
    | .pvisual =>
      match res with
      | some url => some ⟨{ s.ui with imageUrl := some url, isAnalyzing := false }, .pnone⟩
      | none =>
        some ⟨{ s.ui with
                  error := some (str "Geen match gevonden. Probeer het nummer iets dichter bij de microfoon te houden."),
                  isAnalyzing := false }, .pnone⟩
    | _ => none
  | .tick =>
    some ⟨{ s.ui with countdown := if s.ui.countdown ≤ 1 then 0 else s.ui.countdown - 1 },
          s.pending⟩

/-- The initial state of src/App.tsx lines 10 to 17: all flags false,
nothing stored, countdown zero, nothing in flight. -/
def initState : RunState :=
  ⟨{ isRecording := false, isAnalyzing := false, error := none,
     result := none, imageUrl := none, countdown := 0 }, .pnone⟩

/-- Run a list of events through the step function, failing if any
event is not enabled. -/
def runTrace (s : RunState) : List Ev → Option RunState
  | [] => some s
  | e :: es =>
    match stepFn s e with
    | some s' => runTrace s' es
    | none => none

/-- Reachability from the initial state through enabled events. -/
inductive Reach : RunState → Prop where
  | init : Reach initState
  | step {s s' : RunState} {e : Ev} : Reach s → stepFn s e = some s' → Reach s'

/-- The processAudio of the src/unnamed/part_002 revision
(lines 115 to 137): unlike the canonical src/App.tsx it stores the
result only together with the image in one final state update, so a
visual failure leaves the result absent. -/
def processAudioV2 (u : UiState) (recog : Option MusicAnalysis)
    (vis : Option Str) : UiState :=
  match recog with
  | none => { u with error := some (str "Failed to interpret the music. Please try again with clearer audio."),
                     isAnalyzing := false }
  | some a =>
    match vis with
    | none => { u with error := some (str "Failed to interpret the music. Please try again with clearer audio."),
                       isAnalyzing := false }
    | some url => { u with result := some a, imageUrl := some url, isAnalyzing := false }

/-- The lines of a response in the exact plain-text format requested by
the prompt template (src/services/geminiService.ts lines 18 to 27):
each labelled field on its own line, label, colon, space, value. -/
def stdLines (v : Fields) : List Str :=
  [str "Artist: " ++ v.artist,
   str "Title: " ++ v.title,
   str "Lyrics: " ++ v.lyrics,
   str "Mood: " ++ v.mood,
   str "Genre: " ++ v.genre,
   str "ReleaseDate: " ++ v.releaseDate,
   str "SpotifyUrl: " ++ v.spotifyUrl,
   str "YoutubeUrl: " ++ v.youtubeUrl,
   str "VisualPrompt: " ++ v.visualPrompt]

/-- A standard-format response text: the nine labelled lines joined by
newlines. -/
def stdResponse (v : Fields) : Str := joinC '\n' (stdLines v)

/-- A concrete analysis record used by the concrete runs below. -/
def demoA : MusicAnalysis where
  artist := str "Queen"
  title := str "Bohemian Rhapsody"
  mood := str "Epic"
  genre := str "Rock"
  lyrics := str "Is this the real life?"
  visualPrompt := str "opera lights"
  spotifyUrl := str "su"
  youtubeUrl := str "yu"
  releaseDate := str "1975"
  sources := []

/-- The state right after a supported start click from the initial
state: recording, everything cleared, microphone request pending. -/
def demoRec : RunState := ⟨⟨true, false, none, none, none, 8⟩, .pmic⟩

/-- The state after the microphone is granted: stop timeout pending. -/
def demoWait : RunState := ⟨⟨true, false, none, none, none, 8⟩, .ptimer⟩

/-- The state after the stop timeout fires: analyzing, recognition
pending. -/
def demoAnalyzing : RunState := ⟨⟨false, true, none, none, none, 8⟩, .precstop⟩

/-- The state after a successful recognition in the concrete run:
result stored, visual call pending. -/
def demoAfterRecog : RunState := ⟨⟨false, true, none, some demoA, none, 8⟩, .pvisual⟩

/-- The settled state of the concrete run in which the visual call
failed after a successful recognition. -/
def demoErr : RunState :=
  ⟨⟨false, false,
    some (str "Geen match gevonden. Probeer het nummer iets dichter bij de microfoon te houden."),
    some demoA, none, 8⟩, .pnone⟩

/-- The inductive invariant of the session state machine: the two
activity flags are mutually exclusive; during analysis no error and no
image is stored; while the microphone request or the stop timeout is
outstanding the session is in a freshly-cleared recording state; while
a model call is outstanding the session is analyzing. -/
def Inv (s : RunState) : Prop :=
  (s.ui.isRecording = false ∨ s.ui.isAnalyzing = false)
  ∧ (s.ui.isAnalyzing = true → s.ui.error = none ∧ s.ui.imageUrl = none)
  ∧ (s.pending = .pmic ∨ s.pending = .ptimer →
      s.ui.isRecording = true ∧ s.ui.isAnalyzing = false ∧ s.ui.error = none
        ∧ s.ui.result = none ∧ s.ui.imageUrl = none)
  ∧ (s.pending = .precstop ∨ s.pending = .pvisual → s.ui.isAnalyzing = true)

theorem analyzing_not_visible {u : UiState}
    (h2 : u.isAnalyzing = true → u.error = none ∧ u.imageUrl = none)
    (ha : u.isAnalyzing = true) : buttonVisible u = false := by
  obtain ⟨he, hi⟩ := h2 ha
  simp [buttonVisible, ha, he, hi]

theorem pending_not_visible {s : RunState} (hI : Inv s)
    (hp : s.pending ≠ .pnone) : buttonVisible s.ui = false := by
  obtain ⟨h1, h2, h3, h4⟩ := hI
  cases hp' : s.pending with
  | pnone => exact absurd hp' hp
  | pmic =>
    obtain ⟨hr, ha, he, hres, himg⟩ := h3 (Or.inl hp')
    simp [buttonVisible, hr, he, hres]
  | ptimer =>
    obtain ⟨hr, ha, he, hres, himg⟩ := h3 (Or.inr hp')
    simp [buttonVisible, hr, he, hres]
  | precstop => exact analyzing_not_visible h2 (h4 (Or.inl hp'))
  | pvisual => exact analyzing_not_visible h2 (h4 (Or.inr hp'))

theorem inv_init : Inv initState := by
  simp [Inv, initState]

theorem inv_step {s s' : RunState} {e : Ev} (hI : Inv s)
    (h : stepFn s e = some s') : Inv s' := by
  obtain ⟨h1, h2, h3, h4⟩ := hI
  cases e with
  | clickStart supported =>
    by_cases hv : buttonVisible s.ui = true
    · have hnp : s.pending = .pnone := by
        by_contra hp
        rw [pending_not_visible ⟨h1, h2, h3, h4⟩ hp] at hv
        exact Bool.false_ne_true hv
      have ha : s.ui.isAnalyzing = false := by
        by_contra hban
        have hban' : s.ui.isAnalyzing = true := by
          cases hx : s.ui.isAnalyzing
          · exact absurd hx hban
          · rfl
        rw [analyzing_not_visible h2 hban'] at hv
        exact Bool.false_ne_true hv
      cases supported with
      | true =>
        simp only [stepFn, hv, if_true, Option.some.injEq] at h
        subst h
        refine ⟨Or.inr ha, ?_, ?_, ?_⟩ <;> simp [ha]
      | false =>
        simp only [stepFn, hv, if_true, Bool.false_eq_true, if_false,
          Option.some.injEq] at h
        subst h
        refine ⟨Or.inl rfl, ?_, ?_, ?_⟩ <;> simp [ha, hnp]
    · simp only [stepFn, Bool.not_eq_true] at hv
      simp [stepFn, hv] at h
  | micResult granted =>
    cases hp : s.pending with
    | pmic =>
      obtain ⟨hr, ha, he, hres, himg⟩ := h3 (Or.inl hp)
      cases granted with
      | true =>
        simp only [stepFn, hp, if_true, Option.some.injEq] at h
        subst h
        exact ⟨Or.inr ha, h2, fun _ => ⟨hr, ha, he, hres, himg⟩, by simp⟩
      | false =>
        simp only [stepFn, hp, Bool.false_eq_true, if_false,
          Option.some.injEq] at h
        subst h
        refine ⟨Or.inl rfl, ?_, ?_, ?_⟩ <;> simp [ha]
    | pnone => simp [stepFn, hp] at h
    | ptimer => simp [stepFn, hp] at h
    | precstop => simp [stepFn, hp] at h
    | pvisual => simp [stepFn, hp] at h
  | timerFire =>
    cases hp : s.pending with
    | ptimer =>
      obtain ⟨hr, ha, he, hres, himg⟩ := h3 (Or.inr hp)
      simp only [stepFn, hp, Option.some.injEq] at h
      subst h
      refine ⟨Or.inl rfl, ?_, ?_, ?_⟩ <;> simp [he, himg]
    | pnone => simp [stepFn, hp] at h
    | pmic => simp [stepFn, hp] at h
    | precstop => simp [stepFn, hp] at h
    | pvisual => simp [stepFn, hp] at h
  | recogDone res =>
    cases hp : s.pending with
    | precstop =>
      have ha : s.ui.isAnalyzing = true := h4 (Or.inl hp)
      obtain ⟨he, himg⟩ := h2 ha
      have hr : s.ui.isRecording = false := by
        rcases h1 with h1 | h1
        · exact h1
        · rw [h1] at ha; exact absurd ha Bool.false_ne_true
      cases res with
      | some a =>
        simp only [stepFn, hp, Option.some.injEq] at h
        subst h
        refine ⟨Or.inl hr, ?_, ?_, ?_⟩ <;> simp [he, himg, ha]
      | none =>
        simp only [stepFn, hp, Option.some.injEq] at h
        subst h
        refine ⟨Or.inl hr, ?_, ?_, ?_⟩ <;> simp
    | pnone => simp [stepFn, hp] at h
    | pmic => simp [stepFn, hp] at h
    | ptimer => simp [stepFn, hp] at h
    | pvisual => simp [stepFn, hp] at h
  | visualDone res =>
    cases hp : s.pending with
    | pvisual =>
      have ha : s.ui.isAnalyzing = true := h4 (Or.inr hp)
      have hr : s.ui.isRecording = false := by
        rcases h1 with h1 | h1
        · exact h1
        · rw [h1] at ha; exact absurd ha Bool.false_ne_true
      cases res with
      | some url =>
        simp only [stepFn, hp, Option.some.injEq] at h
        subst h
        refine ⟨Or.inl hr, ?_, ?_, ?_⟩ <;> simp
      | none =>
        simp only [stepFn, hp, Option.some.injEq] at h
        subst h
        refine ⟨Or.inl hr, ?_, ?_, ?_⟩ <;> simp
    | pnone => simp [stepFn, hp] at h
    | pmic => simp [stepFn, hp] at h
    | ptimer => simp [stepFn, hp] at h
    | precstop => simp [stepFn, hp] at h
  | tick =>
    simp only [stepFn, Option.some.injEq] at h
    subst h
    exact ⟨h1, h2, fun hx => h3 hx, fun hx => h4 hx⟩

theorem inv_reach {s : RunState} (h : Reach s) : Inv s := by
  induction h with
  | init => exact inv_init
  | step _ hstep ih => exact inv_step ih hstep

theorem splitOnC_ne_nil (sep : Char) (l : Str) : splitOnC sep l ≠ [] := by
  cases l with
  | nil => simp [splitOnC]
  | cons c rest =>
    by_cases hc : c = sep
    · simp [splitOnC, hc]
    · simp only [splitOnC, if_neg hc]
      cases h : splitOnC sep rest <;> simp

theorem splitOnC_append_sep {sep : Char} {a : Str} (b : Str)
    (h : ∀ c ∈ a, c ≠ sep) :
    splitOnC sep (a ++ sep :: b) = a :: splitOnC sep b := by
  induction a with
  | nil => simp [splitOnC]
  | cons c a ih =>
    have hc : c ≠ sep := h c (List.mem_cons_self c a)
    have ih' := ih (fun x hx => h x (List.mem_cons_of_mem c hx))
    have ih'' : splitOnC sep (List.append a (sep :: b)) = a :: splitOnC sep b := ih'
    simp only [List.cons_append, splitOnC, if_neg hc]
    rw [ih'']

theorem splitOnC_of_no_sep {sep : Char} {l : Str} (h : ∀ c ∈ l, c ≠ sep) :
    splitOnC sep l = [l] := by
  induction l with
  | nil => simp [splitOnC]
  | cons c rest ih =>
    have hc : c ≠ sep := h c (List.mem_cons_self c rest)
    have ih' := ih (fun x hx => h x (List.mem_cons_of_mem c hx))
    simp only [splitOnC, if_neg hc, ih']

theorem joinC_cons_head (sep : Char) (c : Char) (l : Str) (ls : List Str) :
    joinC sep ((c :: l) :: ls) = c :: joinC sep (l :: ls) := by
  cases ls <;> simp [joinC]

theorem joinC_splitOnC (sep : Char) (l : Str) :
    joinC sep (splitOnC sep l) = l := by
  induction l with
  | nil => simp [splitOnC, joinC]
  | cons c rest ih =>
    by_cases hc : c = sep
    · subst hc
      simp only [splitOnC, if_pos rfl]
      cases h : splitOnC c rest with
      | nil => exact absurd h (splitOnC_ne_nil c rest)
      | cons x xs =>
        rw [h] at ih
        simp [joinC, ih]
    · simp only [splitOnC, if_neg hc]
      cases h : splitOnC sep rest with
      | nil => exact absurd h (splitOnC_ne_nil sep rest)
      | cons x xs =>
        rw [h] at ih
        rw [joinC_cons_head, ih]

theorem splitOnC_joinC {sep : Char} :
    ∀ (ls : List Str), ls ≠ [] → (∀ l ∈ ls, ∀ c ∈ l, c ≠ sep) →
      splitOnC sep (joinC sep ls) = ls
  | [], h, _ => absurd rfl h
  | [l], _, h => by
    simp only [joinC]
    exact splitOnC_of_no_sep (h l (List.mem_singleton_self l))
  | l :: l' :: ls, _, h => by
    have h1 : ∀ c ∈ l, c ≠ sep := h l (List.mem_cons_self l _)
    have h2 : ∀ x ∈ l' :: ls, ∀ c ∈ x, c ≠ sep :=
      fun x hx => h x (List.mem_cons_of_mem l hx)
    have ih := splitOnC_joinC (l' :: ls) (by simp) h2
    simp only [joinC]
    rw [splitOnC_append_sep (joinC sep (l' :: ls)) h1, ih]

theorem isPrefixOfCI_append {p a : Str} (b : Str)
    (h : isPrefixOfCI p a = true) : isPrefixOfCI p (a ++ b) = true := by
  induction p generalizing a with
  | nil => simp [isPrefixOfCI]
  | cons c p ih =>
    cases a with
    | nil => simp [isPrefixOfCI] at h
    | cons d a =>
      simp only [isPrefixOfCI, Bool.and_eq_true] at h
      simp only [List.cons_append, isPrefixOfCI, Bool.and_eq_true]
      exact ⟨h.1, ih h.2⟩

theorem isPrefixOfCI_take_of_append {p a b : Str}
    (h : isPrefixOfCI p (a ++ b) = true) :
    isPrefixOfCI (p.take a.length) a = true := by
  induction a generalizing p with
  | nil => simp [isPrefixOfCI]
  | cons d a ih =>
    cases p with
    | nil => simp [isPrefixOfCI]
    | cons c p =>
      simp only [List.cons_append, isPrefixOfCI, Bool.and_eq_true] at h
      simp only [List.length_cons, List.take_succ_cons, isPrefixOfCI,
        Bool.and_eq_true]
      exact ⟨h.1, ih h.2⟩

theorem isPrefixOfCI_append_false {label a : Str} (v : Str)
    (hc : isPrefixOfCI (label.take a.length) a = false) :
    isPrefixOfCI label (a ++ v) = false := by
  cases h : isPrefixOfCI label (a ++ v) with
  | false => rfl
  | true => rw [isPrefixOfCI_take_of_append h] at hc; exact hc

theorem trimStr_cons_space (v : Str) : trimStr (' ' :: v) = trimStr v := by
  have : isWhite ' ' = true := by decide
  simp [trimStr, List.dropWhile_cons, this]

theorem bool_ne_true_of_eq_false {b : Bool} (h : b = false) : ¬ b = true := by
  simp [h]

theorem fieldValue_of_find {field text a w : Str}
    (hf : (splitLines text).find? (fun l => isPrefixOfCI field l)
            = some (a ++ ':' :: ' ' :: w))
    (hcolon : ∀ c ∈ a, c ≠ ':') :
    extractFieldR field text = stripBr (trimStr w) := by
  simp only [extractFieldR, hf]
  rw [splitOnC_append_sep _ hcolon]
  simp only [List.drop_succ_cons, List.drop_zero]
  rw [joinC_splitOnC, trimStr_cons_space]

/-- C4 (amended): for a standard nine-line response whose field values
contain no newline, the line-based extractor of src/unnamed/part_001
(first matching line per label, case-insensitive label match at the
start of the line) recovers for every one of the nine labelled fields
the value with surrounding whitespace trimmed and every bracket
character removed (the code strips all brackets, not only surrounding
ones; the canonical regex extractor of src/services/geminiService.ts
instead matches the label anywhere in the text, not only at line
starts). -/
theorem extractFieldsRev_std_response_recovers (v : Fields)
    (h : ∀ l ∈ stdLines v, ∀ c ∈ l, c ≠ '\n') :
    extractFieldsRev (stdResponse v) =
      { artist := stripBr (trimStr v.artist),
        title := stripBr (trimStr v.title),
        lyrics := stripBr (trimStr v.lyrics),
        mood := stripBr (trimStr v.mood),
        genre := stripBr (trimStr v.genre),
        releaseDate := stripBr (trimStr v.releaseDate),
        spotifyUrl := stripBr (trimStr v.spotifyUrl),
        youtubeUrl := stripBr (trimStr v.youtubeUrl),
        visualPrompt := stripBr (trimStr v.visualPrompt) } := by
  have hsplit : splitLines (stdResponse v) = stdLines v := by
    show splitOnC '\n' (joinC '\n' (stdLines v)) = stdLines v
    exact splitOnC_joinC (stdLines v) (by simp [stdLines]) h
  have d1 : str "Artist: " ++ v.artist = str "Artist" ++ ':' :: ' ' :: v.artist := by
    rw [show str "Artist: " = str "Artist" ++ [':', ' '] by decide, List.append_assoc]
    rfl
  have d2 : str "Title: " ++ v.title = str "Title" ++ ':' :: ' ' :: v.title := by
    rw [show str "Title: " = str "Title" ++ [':', ' '] by decide, List.append_assoc]
    rfl
  have d3 : str "Lyrics: " ++ v.lyrics = str "Lyrics" ++ ':' :: ' ' :: v.lyrics := by
    rw [show str "Lyrics: " = str "Lyrics" ++ [':', ' '] by decide, List.append_assoc]
    rfl
  have d4 : str "Mood: " ++ v.mood = str "Mood" ++ ':' :: ' ' :: v.mood := by
    rw [show str "Mood: " = str "Mood" ++ [':', ' '] by decide, List.append_assoc]
    rfl
  have d5 : str "Genre: " ++ v.genre = str "Genre" ++ ':' :: ' ' :: v.genre := by
    rw [show str "Genre: " = str "Genre" ++ [':', ' '] by decide, List.append_assoc]
    rfl
  have d6 : str "ReleaseDate: " ++ v.releaseDate
      = str "ReleaseDate" ++ ':' :: ' ' :: v.releaseDate := by
    rw [show str "ReleaseDate: " = str "ReleaseDate" ++ [':', ' '] by decide,
      List.append_assoc]
    rfl
  have d7 : str "SpotifyUrl: " ++ v.spotifyUrl
      = str "SpotifyUrl" ++ ':' :: ' ' :: v.spotifyUrl := by
    rw [show str "SpotifyUrl: " = str "SpotifyUrl" ++ [':', ' '] by decide,
      List.append_assoc]
    rfl
  have d8 : str "YoutubeUrl: " ++ v.youtubeUrl
      = str "YoutubeUrl" ++ ':' :: ' ' :: v.youtubeUrl := by
    rw [show str "YoutubeUrl: " = str "YoutubeUrl" ++ [':', ' '] by decide,
      List.append_assoc]
    rfl
  have d9 : str "VisualPrompt: " ++ v.visualPrompt
      = str "VisualPrompt" ++ ':' :: ' ' :: v.visualPrompt := by
    rw [show str "VisualPrompt: " = str "VisualPrompt" ++ [':', ' '] by decide,
      List.append_assoc]
    rfl
  have f1 : (splitLines (stdResponse v)).find? (fun l => isPrefixOfCI (str "Artist") l)
      = some (str "Artist" ++ ':' :: ' ' :: v.artist) := by
    rw [hsplit]
    simp only [stdLines]
    rw [List.find?_cons_of_pos _ (isPrefixOfCI_append _ (by decide))]
    rw [d1]
  have f2 : (splitLines (stdResponse v)).find? (fun l => isPrefixOfCI (str "Title") l)
      = some (str "Title" ++ ':' :: ' ' :: v.title) := by
    rw [hsplit]
    simp only [stdLines]
    rw [List.find?_cons_of_neg _
      (bool_ne_true_of_eq_false (isPrefixOfCI_append_false _ (by decide)))]
    rw [List.find?_cons_of_pos _ (isPrefixOfCI_append _ (by decide))]
    rw [d2]
  have f3 : (splitLines (stdResponse v)).find? (fun l => isPrefixOfCI (str "Lyrics") l)
      = some (str "Lyrics" ++ ':' :: ' ' :: v.lyrics) := by
    rw [hsplit]
    simp only [stdLines]
    rw [List.find?_cons_of_neg _
      (bool_ne_true_of_eq_false (isPrefixOfCI_append_false _ (by decide)))]
    rw [List.find?_cons_of_neg _
      (bool_ne_true_of_eq_false (isPrefixOfCI_append_false _ (by decide)))]
    rw [List.find?_cons_of_pos _ (isPrefixOfCI_append _ (by decide))]
    rw [d3]
  have f4 : (splitLines (stdResponse v)).find? (fun l => isPrefixOfCI (str "Mood") l)
      = some (str "Mood" ++ ':' :: ' ' :: v.mood) := by
    rw [hsplit]
    simp only [stdLines]
    rw [List.find?_cons_of_neg _
      (bool_ne_true_of_eq_false (isPrefixOfCI_append_false _ (by decide)))]
    rw [List.find?_cons_of_neg _
      (bool_ne_true_of_eq_false (isPrefixOfCI_append_false _ (by decide)))]
    rw [List.find?_cons_of_neg _
      (bool_ne_true_of_eq_false (isPrefixOfCI_append_false _ (by decide)))]
    rw [List.find?_cons_of_pos _ (isPrefixOfCI_append _ (by decide))]
    rw [d4]
  have f5 : (splitLines (stdResponse v)).find? (fun l => isPrefixOfCI (str "Genre") l)
      = some (str "Genre" ++ ':' :: ' ' :: v.genre) := by
    rw [hsplit]
    simp only [stdLines]
    rw [List.find?_cons_of_neg _
      (bool_ne_true_of_eq_false (isPrefixOfCI_append_false _ (by decide)))]
    rw [List.find?_cons_of_neg _
      (bool_ne_true_of_eq_false (isPrefixOfCI_append_false _ (by decide)))]
    rw [List.find?_cons_of_neg _
      (bool_ne_true_of_eq_false (isPrefixOfCI_append_false _ (by decide)))]
    rw [List.find?_cons_of_neg _
      (bool_ne_true_of_eq_false (isPrefixOfCI_append_false _ (by decide)))]
    rw [List.find?_cons_of_pos _ (isPrefixOfCI_append _ (by decide))]
    rw [d5]
  have f6 : (splitLines (stdResponse v)).find?
        (fun l => isPrefixOfCI (str "ReleaseDate") l)
      = some (str "ReleaseDate" ++ ':' :: ' ' :: v.releaseDate) := by
    rw [hsplit]
    simp only [stdLines]
    rw [List.find?_cons_of_neg _
      (bool_ne_true_of_eq_false (isPrefixOfCI_append_false _ (by decide)))]
    rw [List.find?_cons_of_neg _
      (bool_ne_true_of_eq_false (isPrefixOfCI_append_false _ (by decide)))]
    rw [List.find?_cons_of_neg _
      (bool_ne_true_of_eq_false (isPrefixOfCI_append_false _ (by decide)))]
    rw [List.find?_cons_of_neg _
      (bool_ne_true_of_eq_false (isPrefixOfCI_append_false _ (by decide)))]
    rw [List.find?_cons_of_neg _
      (bool_ne_true_of_eq_false (isPrefixOfCI_append_false _ (by decide)))]
    rw [List.find?_cons_of_pos _ (isPrefixOfCI_append _ (by decide))]
    rw [d6]
  have f7 : (splitLines (stdResponse v)).find?
        (fun l => isPrefixOfCI (str "SpotifyUrl") l)
      = some (str "SpotifyUrl" ++ ':' :: ' ' :: v.spotifyUrl) := by
    rw [hsplit]
    simp only [stdLines]
    rw [List.find?_cons_of_neg _
      (bool_ne_true_of_eq_false (isPrefixOfCI_append_false _ (by decide)))]
    rw [List.find?_cons_of_neg _
      (bool_ne_true_of_eq_false (isPrefixOfCI_append_false _ (by decide)))]
    rw [List.find?_cons_of_neg _
      (bool_ne_true_of_eq_false (isPrefixOfCI_append_false _ (by decide)))]
    rw [List.find?_cons_of_neg _
      (bool_ne_true_of_eq_false (isPrefixOfCI_append_false _ (by decide)))]
    rw [List.find?_cons_of_neg _
      (bool_ne_true_of_eq_false (isPrefixOfCI_append_false _ (by decide)))]
    rw [List.find?_cons_of_neg _
      (bool_ne_true_of_eq_false (isPrefixOfCI_append_false _ (by decide)))]
    rw [List.find?_cons_of_pos _ (isPrefixOfCI_append _ (by decide))]
    rw [d7]
  have f8 : (splitLines (stdResponse v)).find?
        (fun l => isPrefixOfCI (str "YoutubeUrl") l)
      = some (str "YoutubeUrl" ++ ':' :: ' ' :: v.youtubeUrl) := by
    rw [hsplit]
    simp only [stdLines]
    rw [List.find?_cons_of_neg _
      (bool_ne_true_of_eq_false (isPrefixOfCI_append_false _ (by decide)))]
    rw [List.find?_cons_of_neg _
      (bool_ne_true_of_eq_false (isPrefixOfCI_append_false _ (by decide)))]
    rw [List.find?_cons_of_neg _
      (bool_ne_true_of_eq_false (isPrefixOfCI_append_false _ (by decide)))]
    rw [List.find?_cons_of_neg _
      (bool_ne_true_of_eq_false (isPrefixOfCI_append_false _ (by decide)))]
    rw [List.find?_cons_of_neg _
      (bool_ne_true_of_eq_false (isPrefixOfCI_append_false _ (by decide)))]
    rw [List.find?_cons_of_neg _
      (bool_ne_true_of_eq_false (isPrefixOfCI_append_false _ (by decide)))]
    rw [List.find?_cons_of_neg _
      (bool_ne_true_of_eq_false (isPrefixOfCI_append_false _ (by decide)))]
    rw [List.find?_cons_of_pos _ (isPrefixOfCI_append _ (by decide))]
    rw [d8]
  have f9 : (splitLines (stdResponse v)).find?
        (fun l => isPrefixOfCI (str "VisualPrompt") l)
      = some (str "VisualPrompt" ++ ':' :: ' ' :: v.visualPrompt) := by
    rw [hsplit]
    simp only [stdLines]
    rw [List.find?_cons_of_neg _
      (bool_ne_true_of_eq_false (isPrefixOfCI_append_false _ (by decide)))]
    rw [List.find?_cons_of_neg _
      (bool_ne_true_of_eq_false (isPrefixOfCI_append_false _ (by decide)))]
    rw [List.find?_cons_of_neg _
      (bool_ne_true_of_eq_false (isPrefixOfCI_append_false _ (by decide)))]
    rw [List.find?_cons_of_neg _
      (bool_ne_true_of_eq_false (isPrefixOfCI_append_false _ (by decide)))]
    rw [List.find?_cons_of_neg _
      (bool_ne_true_of_eq_false (isPrefixOfCI_append_false _ (by decide)))]
    rw [List.find?_cons_of_neg _
      (bool_ne_true_of_eq_false (isPrefixOfCI_append_false _ (by decide)))]
    rw [List.find?_cons_of_neg _
      (bool_ne_true_of_eq_false (isPrefixOfCI_append_false _ (by decide)))]
    rw [List.find?_cons_of_neg _
      (bool_ne_true_of_eq_false (isPrefixOfCI_append_false _ (by decide)))]
    rw [List.find?_cons_of_pos _ (isPrefixOfCI_append _ (by decide))]
    rw [d9]
  simp only [extractFieldsRev, Fields.mk.injEq]
  exact ⟨fieldValue_of_find f1 (by decide), fieldValue_of_find f2 (by decide),
    fieldValue_of_find f3 (by decide), fieldValue_of_find f4 (by decide),
    fieldValue_of_find f5 (by decide), fieldValue_of_find f6 (by decide),
    fieldValue_of_find f7 (by decide), fieldValue_of_find f8 (by decide),
    fieldValue_of_find f9 (by decide)⟩

theorem extractFieldC_eq_nil_of_not_hasLabel {f t : Str}
    (h : hasLabel f t = false) : extractFieldC f t = [] := by
  unfold hasLabel at h
  unfold extractFieldC
  cases hs : searchCI (f ++ str ":") t with
  | none => rfl
  | some rest => rw [hs] at h; simp at h

theorem jsOr_nil (d : Str) : jsOr [] d = d := by
  simp [jsOr]

theorem jsOr_ne_nil {s : Str} {d : Str} (hd : d ≠ []) : jsOr s d ≠ [] := by
  cases s with
  | nil => simpa [jsOr] using hd
  | cons c cs => simp [jsOr]

theorem append_left_ne_nil {a : Str} (b : Str) (h : a ≠ []) : a ++ b ≠ [] := by
  cases a with
  | nil => exact absurd rfl h
  | cons c cs => simp

theorem firstImageUrl_eq_nil_of_find_none {parts : List Part}
    (h : parts.find? (fun q => q.inlineData.isSome) = none) :
    firstImageUrl parts = [] := by
  induction parts with
  | nil => rfl
  | cons p ps ih =>
    cases hd : p.inlineData with
    | some d =>
      rw [List.find?_cons_of_pos _ (by simp [hd])] at h
      exact absurd h (by simp)
    | none =>
      rw [List.find?_cons_of_neg _ (by simp [hd])] at h
      simp only [firstImageUrl, hd]
      exact ih h

theorem firstImageUrl_eq_of_find_some {parts : List Part} {p : Part}
    {d : InlineData}
    (h : parts.find? (fun q => q.inlineData.isSome) = some p)
    (hd : p.inlineData = some d) :
    firstImageUrl parts = str "data:image/png;base64," ++ d.data := by
  induction parts with
  | nil => simp [List.find?] at h
  | cons q qs ih =>
    cases hq : q.inlineData with
    | some d' =>
      rw [List.find?_cons_of_pos _ (by simp [hq])] at h
      obtain rfl : q = p := by injection h
      rw [hq] at hd
      obtain rfl : d' = d := by injection hd
      simp [firstImageUrl, hq]
    | none =>
      rw [List.find?_cons_of_neg _ (by simp [hq])] at h
      simp only [firstImageUrl, hq]
      exact ih h

theorem pngTag_append_not_empty (x : Str) :
    (str "data:image/png;base64," ++ x).isEmpty = false := by
  rw [show str "data:image/png;base64," = 'd' :: str "ata:image/png;base64," by decide]
  simp

theorem firstImageUrl_setMime (m : Str) (parts : List Part) :
    firstImageUrl (parts.map (setMime m)) = firstImageUrl parts := by
  induction parts with
  | nil => rfl
  | cons p ps ih =>
    cases hd : p.inlineData with
    | some d => simp [firstImageUrl, setMime, hd]
    | none => simp [firstImageUrl, setMime, hd, ih]

/-- C6: for every grounding-chunk list, the decoded source list equals
the filterMap that drops exactly the chunks without a web source, keeps
the order of the remaining chunks, and substitutes the placeholder for
an absent or empty web title; this proves exclusion of exactly the
web-less entries, order preservation, and title defaulting at once. -/
theorem decodeSources_filterMap (ph : Str) (chunks : List Chunk) :
    decodeSources ph chunks = chunks.filterMap (fun c => c.web.map (fun w =>
      { title := jsOr (w.title.getD []) ph, uri := w.uri.getD [] })) := by
  induction chunks with
  | nil => rfl
  | cons c cs ih =>
    cases hw : c.web with
    | none =>
      simp only [decodeSources, List.filter_cons, List.filterMap_cons, hw] at ih ⊢
      simpa using ih
    | some w =>
      simp only [decodeSources] at ih ⊢
      simp [List.filter_cons, List.filterMap_cons, hw, ih]

/-- C9: generateVisual builds its result from the first content part
carrying inline image bytes, and fails with the no-image error when no
part carries inline bytes. -/
theorem generateVisual_first_inline_or_error (parts : List Part) :
    (∀ p d, parts.find? (fun q => q.inlineData.isSome) = some p →
        p.inlineData = some d →
        generateVisualDecode parts = .ok (str "data:image/png;base64," ++ d.data))
    ∧ (parts.find? (fun q => q.inlineData.isSome) = none →
        generateVisualDecode parts
          = .error (str "Could not find image in model response.")) := by
  constructor
  · intro p d hf hd
    unfold generateVisualDecode
    rw [firstImageUrl_eq_of_find_some hf hd]
    simp [pngTag_append_not_empty]
  · intro hf
    unfold generateVisualDecode
    rw [firstImageUrl_eq_nil_of_find_none hf]
    rfl

/-- C9 witness: on a response whose second part carries inline bytes the
decoded url is the tagged payload of that part, and on a response with
no parts the call fails with the no-image error. -/
theorem generateVisual_first_inline_or_error_witness :
    generateVisualDecode
        [{ inlineData := none },
         { inlineData := some { mimeType := str "image/webp", data := str "QUJD" } }]
      = .ok (str "data:image/png;base64,QUJD")
    ∧ generateVisualDecode ([] : List Part)
      = .error (str "Could not find image in model response.") := by
  constructor
  · exact ((generateVisual_first_inline_or_error
      [{ inlineData := none },
       { inlineData := some { mimeType := str "image/webp", data := str "QUJD" } }]).1
      { inlineData := some { mimeType := str "image/webp", data := str "QUJD" } }
      { mimeType := str "image/webp", data := str "QUJD" } (by decide) (by decide)).trans rfl
  · exact (generateVisual_first_inline_or_error []).2 (by decide)

/-- C10: the url returned by generateVisual is exactly the fixed
data-png-base64 tag concatenated with the first inline payload; the
declared mime type of the parts has no influence on the result. -/
theorem generateVisual_png_tag_fixed (parts : List Part) (m : Str) :
    generateVisualDecode (parts.map (setMime m)) = generateVisualDecode parts
    ∧ (∀ p d, parts.find? (fun q => q.inlineData.isSome) = some p →
        p.inlineData = some d →
        generateVisualDecode parts
          = .ok (str "data:image/png;base64," ++ d.data)) := by
  constructor
  · unfold generateVisualDecode
    rw [firstImageUrl_setMime]
  · intro p d hf hd
    unfold generateVisualDecode
    rw [firstImageUrl_eq_of_find_some hf hd]
    simp [pngTag_append_not_empty]

/-- C10 witness: a jpeg-declared inline part still produces a png-tagged
url, and redeclaring the mime type leaves the decoded result
unchanged. -/
theorem generateVisual_png_tag_fixed_witness :
    generateVisualDecode
        [{ inlineData := some { mimeType := str "image/jpeg", data := str "Zm9v" } }]
      = .ok (str "data:image/png;base64,Zm9v")
    ∧ generateVisualDecode
        ([{ inlineData := some { mimeType := str "image/jpeg", data := str "Zm9v" } }].map
          (setMime (str "image/gif")))
      = generateVisualDecode
        [{ inlineData := some { mimeType := str "image/jpeg", data := str "Zm9v" } }] := by
  have h := generateVisual_png_tag_fixed
    [{ inlineData := some { mimeType := str "image/jpeg", data := str "Zm9v" } }]
    (str "image/gif")
  exact ⟨(h.2 { inlineData := some { mimeType := str "image/jpeg", data := str "Zm9v" } }
    { mimeType := str "image/jpeg", data := str "Zm9v" }
    (by decide) (by decide)).trans rfl, h.1⟩

/-- C4 counterexample: a response containing all nine labelled fields in
which the lyrics value carries interior brackets; the canonical
extractor removes them, so the value is not recovered exactly with only
surrounding brackets stripped. -/
theorem extractFields_interior_brackets_cex :
    (extractFieldsFromResponse
        (str "Artist: Queen\nTitle: We Are The Champions\nLyrics: We [are] the champions\nMood: Triumphant\nGenre: Rock\nReleaseDate: 1977\nSpotifyUrl: su\nYoutubeUrl: yu\nVisualPrompt: stadium lights")).lyrics
      = str "We are the champions"
    ∧ str "We are the champions" ≠ str "We [are] the champions" := by
  exact ⟨by decide, by decide⟩

/-- C4 witness: a concrete standard response, with a padded title and a
bracketed lyric, decoded by the amended theorem. -/
theorem extractFieldsRev_std_response_recovers_witness :
    extractFieldsRev (stdResponse
      { artist := str "Queen", title := str " Bohemian Rhapsody ",
        lyrics := str "Is this [the] real life?", mood := str "Epic",
        genre := str "Rock", releaseDate := str "1975",
        spotifyUrl := str "su", youtubeUrl := str "yu",
        visualPrompt := str "opera lights" })
      = { artist := str "Queen", title := str "Bohemian Rhapsody",
          lyrics := str "Is this the real life?", mood := str "Epic",
          genre := str "Rock", releaseDate := str "1975",
          spotifyUrl := str "su", youtubeUrl := str "yu",
          visualPrompt := str "opera lights" } :=
  (extractFieldsRev_std_response_recovers
    { artist := str "Queen", title := str " Bohemian Rhapsody ",
      lyrics := str "Is this [the] real life?", mood := str "Epic",
      genre := str "Rock", releaseDate := str "1975",
      spotifyUrl := str "su", youtubeUrl := str "yu",
      visualPrompt := str "opera lights" } (by decide)).trans (by decide)

/-- C5: for every response text, each of the nine fields decodes to the
empty string when its label is not found, and the returned record
substitutes the documented fallback for each required field (artist,
title, lyrics, mood, genre, visualPrompt) and passes the optional
fields through, so the required fields of the result are never
empty. -/
theorem analyzeAudio_missing_fields_fallbacks (text : Option Str) (chunks : List Chunk) :
    (hasLabel (str "Artist") (text.getD []) = false →
        (extractFieldsFromResponse (text.getD [])).artist = []
          ∧ (analyzeAudioDecode text chunks).artist = str "Unknown Artist")
    ∧ (hasLabel (str "Title") (text.getD []) = false →
        (extractFieldsFromResponse (text.getD [])).title = []
          ∧ (analyzeAudioDecode text chunks).title = str "Unknown Track")
    ∧ (hasLabel (str "Lyrics") (text.getD []) = false →
        (extractFieldsFromResponse (text.getD [])).lyrics = []
          ∧ (analyzeAudioDecode text chunks).lyrics
              = str "Atmospheric resonance detected.")
    ∧ (hasLabel (str "Mood") (text.getD []) = false →
        (extractFieldsFromResponse (text.getD [])).mood = []
          ∧ (analyzeAudioDecode text chunks).mood = str "Atmospheric")
    ∧ (hasLabel (str "Genre") (text.getD []) = false →
        (extractFieldsFromResponse (text.getD [])).genre = []
          ∧ (analyzeAudioDecode text chunks).genre = str "Unknown Genre")
    ∧ (hasLabel (str "VisualPrompt") (text.getD []) = false →
        (extractFieldsFromResponse (text.getD [])).visualPrompt = []
          ∧ (analyzeAudioDecode text chunks).visualPrompt
              = str "Cinematic album art for a "
                  ++ (extractFieldsFromResponse (text.getD [])).genre
                  ++ str " track by "
                  ++ (extractFieldsFromResponse (text.getD [])).artist)
    ∧ (hasLabel (str "ReleaseDate") (text.getD []) = false →
        (analyzeAudioDecode text chunks).releaseDate = [])
    ∧ (hasLabel (str "SpotifyUrl") (text.getD []) = false →
        (analyzeAudioDecode text chunks).spotifyUrl = [])
    ∧ (hasLabel (str "YoutubeUrl") (text.getD []) = false →
        (analyzeAudioDecode text chunks).youtubeUrl = [])
    ∧ (analyzeAudioDecode text chunks).artist ≠ []
    ∧ (analyzeAudioDecode text chunks).title ≠ []
    ∧ (analyzeAudioDecode text chunks).lyrics ≠ []
    ∧ (analyzeAudioDecode text chunks).mood ≠ []
    ∧ (analyzeAudioDecode text chunks).genre ≠ []
    ∧ (analyzeAudioDecode text chunks).visualPrompt ≠ [] := by
  refine ⟨fun h => ?_, fun h => ?_, fun h => ?_, fun h => ?_, fun h => ?_,
    fun h => ?_, fun h => ?_, fun h => ?_, fun h => ?_, ?_, ?_, ?_, ?_, ?_, ?_⟩
  · have hz := extractFieldC_eq_nil_of_not_hasLabel h
    constructor
    · simp only [extractFieldsFromResponse]
      exact hz
    · simp only [analyzeAudioDecode, extractFieldsFromResponse]
      rw [hz]
      exact jsOr_nil _
  · have hz := extractFieldC_eq_nil_of_not_hasLabel h
    constructor
    · simp only [extractFieldsFromResponse]
      exact hz
    · simp only [analyzeAudioDecode, extractFieldsFromResponse]
      rw [hz]
      exact jsOr_nil _
  · have hz := extractFieldC_eq_nil_of_not_hasLabel h
    constructor
    · simp only [extractFieldsFromResponse]
      exact hz
    · simp only [analyzeAudioDecode, extractFieldsFromResponse]
      rw [hz]
      exact jsOr_nil _
  · have hz := extractFieldC_eq_nil_of_not_hasLabel h
    constructor
    · simp only [extractFieldsFromResponse]
      exact hz
    · simp only [analyzeAudioDecode, extractFieldsFromResponse]
      rw [hz]
      exact jsOr_nil _
  · have hz := extractFieldC_eq_nil_of_not_hasLabel h
    constructor
    · simp only [extractFieldsFromResponse]
      exact hz
    · simp only [analyzeAudioDecode, extractFieldsFromResponse]
      rw [hz]
      exact jsOr_nil _
  · have hz := extractFieldC_eq_nil_of_not_hasLabel h
    constructor
    · simp only [extractFieldsFromResponse]
      exact hz
    · simp only [analyzeAudioDecode, extractFieldsFromResponse]
      rw [hz]
      exact jsOr_nil _
  · have hz := extractFieldC_eq_nil_of_not_hasLabel h
    simp only [analyzeAudioDecode, extractFieldsFromResponse]
    exact hz
  · have hz := extractFieldC_eq_nil_of_not_hasLabel h
    simp only [analyzeAudioDecode, extractFieldsFromResponse]
    exact hz
  · have hz := extractFieldC_eq_nil_of_not_hasLabel h
    simp only [analyzeAudioDecode, extractFieldsFromResponse]
    exact hz
  · simp only [analyzeAudioDecode, extractFieldsFromResponse]
    exact jsOr_ne_nil (by decide)
  · simp only [analyzeAudioDecode, extractFieldsFromResponse]
    exact jsOr_ne_nil (by decide)
  · simp only [analyzeAudioDecode, extractFieldsFromResponse]
    exact jsOr_ne_nil (by decide)
  · simp only [analyzeAudioDecode, extractFieldsFromResponse]
    exact jsOr_ne_nil (by decide)
  · simp only [analyzeAudioDecode, extractFieldsFromResponse]
    exact jsOr_ne_nil (by decide)
  · simp only [analyzeAudioDecode, extractFieldsFromResponse]
    apply jsOr_ne_nil
    apply append_left_ne_nil
    apply append_left_ne_nil
    apply append_left_ne_nil
    decide

/-- C5 witness: on an absent response text every label is missing, the
artist falls back to the documented value and the genre of the result
is non-empty. -/
theorem analyzeAudio_missing_fields_fallbacks_witness :
    hasLabel (str "Artist") ((none : Option Str).getD []) = false
    ∧ (analyzeAudioDecode none []).artist = str "Unknown Artist"
    ∧ (analyzeAudioDecode none []).genre ≠ [] := by
  obtain ⟨h1, h2, h3, h4, h5, h6, h7, h8, h9, h10, h11, h12, h13, h14, h15⟩ :=
    analyzeAudio_missing_fields_fallbacks none []
  exact ⟨by decide, (h1 (by decide)).2, h14⟩

/-- C3 counterexample: on an empty response text the canonical
analyzeAudio of src/services/geminiService.ts returns the all-fallback
AnalysisResult instead of failing with an error. -/
theorem analyzeAudio_empty_text_returns_result_cex :
    analyzeAudioDecode (some []) []
      = { artist := str "Unknown Artist", title := str "Unknown Track",
          mood := str "Atmospheric", genre := str "Unknown Genre",
          lyrics := str "Atmospheric resonance detected.",
          visualPrompt := str "Cinematic album art for a  track by ",
          spotifyUrl := [], youtubeUrl := [], releaseDate := [],
          sources := [] } := by decide

/-- C3 (amended): empty response text is an error only in the
src/unnamed/part_001 revision, which fails with its empty-response
message; the canonical analyzeAudio of src/services/geminiService.ts
(the one src/App.tsx imports) has no empty-text check and returns the
record built entirely from the documented fallbacks. -/
theorem empty_text_errors_only_in_revision (text : Option Str) (chunks : List Chunk)
    (h : text.getD [] = []) :
    analyzeAudioRevDecode text chunks
      = .error (str "Kon geen tekst ophalen van de AI.")
    ∧ analyzeAudioDecode text chunks
      = { artist := str "Unknown Artist", title := str "Unknown Track",
          mood := str "Atmospheric", genre := str "Unknown Genre",
          lyrics := str "Atmospheric resonance detected.",
          visualPrompt := str "Cinematic album art for a  track by ",
          spotifyUrl := [], youtubeUrl := [], releaseDate := [],
          sources := decodeSources (str "Search Result") chunks } := by
  constructor
  · unfold analyzeAudioRevDecode
    rw [h]
    rfl
  · unfold analyzeAudioDecode
    rw [h]
    rfl

/-- C3 witness: with no response text and one grounded chunk the
revision fails and the canonical decoder returns the fallback record
carrying the decoded source. -/
theorem empty_text_errors_only_in_revision_witness :
    analyzeAudioRevDecode none [{ web := some { title := none, uri := some (str "u") } }]
      = .error (str "Kon geen tekst ophalen van de AI.")
    ∧ analyzeAudioDecode none [{ web := some { title := none, uri := some (str "u") } }]
      = { artist := str "Unknown Artist", title := str "Unknown Track",
          mood := str "Atmospheric", genre := str "Unknown Genre",
          lyrics := str "Atmospheric resonance detected.",
          visualPrompt := str "Cinematic album art for a  track by ",
          spotifyUrl := [], youtubeUrl := [], releaseDate := [],
          sources := [{ title := str "Search Result", uri := str "u" }] } := by
  have h := empty_text_errors_only_in_revision none
    [{ web := some { title := none, uri := some (str "u") } }] (by decide)
  exact ⟨h.1, h.2.trans (by decide)⟩

theorem reach_demoAnalyzing : Reach demoAnalyzing :=
  @Reach.step demoWait demoAnalyzing .timerFire
    (@Reach.step demoRec demoWait (.micResult true)
      (@Reach.step initState demoRec (.clickStart true) Reach.init (by decide))
      (by decide))
    (by decide)

/-- C7: along every sequence of enabled external events from the
initial state, the recording flag and the analyzing flag are never
simultaneously true. -/
theorem recording_analyzing_mutually_exclusive {s : RunState} (h : Reach s) :
    ¬(s.ui.isRecording = true ∧ s.ui.isAnalyzing = true) := by
  rcases (inv_reach h).1 with h1 | h1 <;> simp [h1]

/-- C7 witness: mutual exclusion at the concrete recording state
reached by a supported start click. -/
theorem recording_analyzing_mutually_exclusive_witness :
    ¬(demoRec.ui.isRecording = true ∧ demoRec.ui.isAnalyzing = true) :=
  recording_analyzing_mutually_exclusive
    (@Reach.step initState demoRec (.clickStart true) Reach.init (by decide))

/-- C8: from any settled state, whether settled with an error or with a
result and image and regardless of the stored content, a supported
retry click produces the freshly-cleared recording state: recording
set, error, result and image reference all cleared. -/
theorem retry_from_settled_clears (s : RunState)
    (hsettled : s.ui.error.isSome = true
      ∨ (s.ui.result.isSome = true ∧ s.ui.imageUrl.isSome = true)) :
    ∃ s', stepFn s (.clickStart true) = some s'
      ∧ s'.ui.isRecording = true ∧ s'.ui.error = none
      ∧ s'.ui.result = none ∧ s'.ui.imageUrl = none := by
  have hv : buttonVisible s.ui = true := by
    rcases hsettled with h | ⟨ha, hb⟩
    · simp [buttonVisible, h]
    · simp [buttonVisible, ha, hb]
  refine ⟨⟨{ s.ui with
              error := none
              result := none
              imageUrl := none
              isRecording := true
              countdown := countdownStart }, .pmic⟩,
    ?_, rfl, rfl, rfl, rfl⟩
  simp [stepFn, hv]

/-- C8 witness: retry from a concrete error-settled state that still
carries old content clears everything and starts recording. -/
theorem retry_from_settled_clears_witness :
    ∃ s', stepFn ⟨⟨false, false, some (str "fout"), some demoA, none, 3⟩, .pnone⟩
        (.clickStart true) = some s'
      ∧ s'.ui.isRecording = true ∧ s'.ui.error = none
      ∧ s'.ui.result = none ∧ s'.ui.imageUrl = none :=
  retry_from_settled_clears
    ⟨⟨false, false, some (str "fout"), some demoA, none, 3⟩, .pnone⟩
    (Or.inl (by decide))

/-- C2 counterexample: in the capture-denied run the session passes
through a state whose recording flag is true before settling in the
error state, so the Recording state is entered. -/
theorem capture_denied_enters_recording_cex :
    stepFn initState (.clickStart true) = some demoRec
    ∧ demoRec.ui.isRecording = true
    ∧ stepFn demoRec (.micResult false)
        = some ⟨⟨false, false, some (str "Microfoon toegang geweigerd."),
                 none, none, 8⟩, .pnone⟩ :=
  ⟨by decide, by decide, by decide⟩

/-- C2 (amended): when the microphone request is denied the session
settles in the error state with recording and analyzing false, but the
Recording state is entered transiently first: startListening sets the
recording flag before awaiting the microphone and the denial handler
clears it again.  Only the unsupported-host failure, which throws
before the first state update, avoids Recording entirely. -/
theorem capture_denied_settles_error_after_transient_recording
    {s s1 s2 : RunState} (hr : Reach s)
    (h1 : stepFn s (.clickStart true) = some s1)
    (h2 : stepFn s1 (.micResult false) = some s2) :
    s1.ui.isRecording = true
    ∧ s2.ui.error.isSome = true
    ∧ s2.ui.isRecording = false
    ∧ s2.ui.isAnalyzing = false
    ∧ (∀ s3 : RunState, stepFn s (.clickStart false) = some s3 →
        s3.ui.isRecording = false ∧ s3.ui.error.isSome = true) := by
  have hI := inv_reach hr
  by_cases hv : buttonVisible s.ui = true
  · have ha : s.ui.isAnalyzing = false := by
      by_contra hban
      have hban' : s.ui.isAnalyzing = true := by
        cases hx : s.ui.isAnalyzing
        · exact absurd hx hban
        · rfl
      rw [analyzing_not_visible hI.2.1 hban'] at hv
      exact Bool.false_ne_true hv
    simp only [stepFn, hv, if_true, Option.some.injEq] at h1
    subst h1
    simp only [stepFn, Bool.false_eq_true, if_false, Option.some.injEq] at h2
    subst h2
    refine ⟨rfl, by simp, rfl, ha, ?_⟩
    intro s3 h3
    simp only [stepFn, hv, if_true, Bool.false_eq_true, if_false,
      Option.some.injEq] at h3
    subst h3
    exact ⟨rfl, by simp⟩
  · simp only [Bool.not_eq_true] at hv
    simp [stepFn, hv] at h1

/-- C2 witness: the denied run from the initial state, with its
transient recording state and its error settlement, and the
unsupported-host run that never records. -/
theorem capture_denied_settles_error_after_transient_recording_witness :
    demoRec.ui.isRecording = true
    ∧ (⟨⟨false, false, some (str "Microfoon toegang geweigerd."),
         none, none, 8⟩, .pnone⟩ : RunState).ui.error.isSome = true
    ∧ (⟨⟨false, false, some (str "Microfoon toegang geweigerd."),
         none, none, 8⟩, .pnone⟩ : RunState).ui.isRecording = false
    ∧ (⟨⟨false, false, some (str "Microfoon toegang geweigerd."),
         none, none, 8⟩, .pnone⟩ : RunState).ui.isAnalyzing = false
    ∧ (∀ s3 : RunState, stepFn initState (.clickStart false) = some s3 →
        s3.ui.isRecording = false ∧ s3.ui.error.isSome = true) :=
  capture_denied_settles_error_after_transient_recording
    Reach.init (by decide) (by decide)

/-- C1 counterexample: running the canonical src/App.tsx pipeline with
a successful recognition and a failing visual call settles in an error
state that still retains the recognized result. -/
theorem visual_failure_retains_result_cex :
    runTrace initState [.clickStart true, .micResult true, .timerFire,
        .recogDone (some demoA), .visualDone none]
      = some ⟨⟨false, false,
               some (str "Geen match gevonden. Probeer het nummer iets dichter bij de microfoon te houden."),
               some demoA, none, 8⟩, .pnone⟩
    ∧ (some demoA : Option MusicAnalysis) ≠ none :=
  ⟨by decide, by decide⟩

/-- C1 (amended): when recognition succeeds and the visual call then
fails, the session settles in the error state (error set, analyzing
false), but the recognized AnalysisResult, stored by processAudio as
soon as recognition succeeded, remains in the settled state; it is not
rendered, because the success view additionally requires the image
reference, which remains absent. -/
theorem visual_failure_settles_error_retaining_result {s s1 s2 : RunState}
    {a : MusicAnalysis} (hr : Reach s)
    (h1 : stepFn s (.recogDone (some a)) = some s1)
    (h2 : stepFn s1 (.visualDone none) = some s2) :
    s2.ui.error.isSome = true
    ∧ s2.ui.isAnalyzing = false
    ∧ s2.ui.result = some a
    ∧ (s2.ui.result.isSome && s2.ui.imageUrl.isSome) = false := by
  have hI := inv_reach hr
  cases hp : s.pending with
  | precstop =>
    have ha : s.ui.isAnalyzing = true := hI.2.2.2 (Or.inl hp)
    have himg : s.ui.imageUrl = none := (hI.2.1 ha).2
    simp only [stepFn, hp, Option.some.injEq] at h1
    subst h1
    simp only [stepFn, Option.some.injEq] at h2
    subst h2
    simp [himg]
  | pnone => simp [stepFn, hp] at h1
  | pmic => simp [stepFn, hp] at h1
  | ptimer => simp [stepFn, hp] at h1
  | pvisual => simp [stepFn, hp] at h1

/-- C1 witness: the concrete run in which recognition succeeds and the
visual call fails, settling in the error state with the result still
stored. -/
theorem visual_failure_settles_error_retaining_result_witness :
    demoErr.ui.error.isSome = true
    ∧ demoErr.ui.isAnalyzing = false
    ∧ demoErr.ui.result = some demoA
    ∧ (demoErr.ui.result.isSome && demoErr.ui.imageUrl.isSome) = false :=
  @visual_failure_settles_error_retaining_result demoAnalyzing demoAfterRecog
    demoErr demoA reach_demoAnalyzing (by decide) (by decide)

/-- The part_002 revision, for contrast with C1: its processAudio
stores the result only together with the image, so a visual failure
leaves the previously-cleared result absent. -/
theorem processAudioV2_visual_failure_discards_result (u : UiState)
    (a : MusicAnalysis) :
    (processAudioV2 u (some a) none).result = u.result := by
  simp [processAudioV2]

end Muziek
